import Mathlib

/-!
Verification of the ANS registry core (sbrin/ans-registry).

Shallow embedding of the registration state machine, the DNS-validation
and certificate-issuance flow, the transparency log, and the CA
fingerprint, translated from `src/routes.ts` (the unnamed route module),
`src/database.ts` and `src/ca.ts`.

Modelling conventions:
- The SQLite store (three tables of `src/database.ts`) is a `Store` record
  of three lists; `INSERT` appends, `SELECT ... LIMIT 1` is `List.find?`,
  `UPDATE ... WHERE` is `List.map` with a guard, exactly as the SQL acts
  on the schema (with its `UNIQUE` constraints made explicit).
- Timestamps are `Nat`; the source stores ISO-8601 strings whose
  lexicographic order coincides with chronological order, so `>` on `Nat`
  models the SQL comparison `expiresAt > ?`.
- Randomness (`uuidv4`, `randomBytes`) and the external `openssl`
  invocation of `ca.ts` are explicit parameters of the operations.
- JavaScript truthiness on strings (`x || y`) is `jsOr`.
-/

namespace ANS

/-! ## JSON serialization of a list of strings

`routes.ts` stores `JSON.stringify(endpoints || [])` at registration and
returns `JSON.parse(agent.endpoints || '[]')` on read.  `escapeChar`
mirrors ECMA-262 `QuoteJSONString` (the quoting used by `JSON.stringify`
on the code units that a Lean `Char` can carry), and the parser mirrors
`JSON.parse` restricted to the sublanguage of arrays of strings, which is
the only shape the stored column ever holds. -/

/-- Lowercase hex digit, as produced by JavaScript number-to-hex printing. -/
def hexDigitChar (n : Nat) : Char :=
  if n < 10 then Char.ofNat (48 + n) else Char.ofNat (87 + n)

/-- Value of a hex digit accepted by `JSON.parse` in a `\uXXXX` escape. -/
def hexVal (c : Char) : Option Nat :=
  if 48 ≤ c.toNat ∧ c.toNat ≤ 57 then some (c.toNat - 48)
  else if 97 ≤ c.toNat ∧ c.toNat ≤ 102 then some (c.toNat - 87)
  else if 65 ≤ c.toNat ∧ c.toNat ≤ 70 then some (c.toNat - 55)
  else none

/-- `JSON.stringify` escaping of one character: `\"`, `\\`, the
control-character shortcuts `\b \t \n \f \r`, `\u00XX` for the remaining
control characters, and every other character verbatim. -/
def escapeChar (c : Char) : List Char :=
  if c = '"' then ['\\', '"']
  else if c = '\\' then ['\\', '\\']
  else if c.toNat = 8 then ['\\', 'b']
  else if c.toNat = 9 then ['\\', 't']
  else if c.toNat = 10 then ['\\', 'n']
  else if c.toNat = 12 then ['\\', 'f']
  else if c.toNat = 13 then ['\\', 'r']
  else if c.toNat < 32 then
    ['\\', 'u', '0', '0', hexDigitChar (c.toNat / 16), hexDigitChar (c.toNat % 16)]
  else [c]

def escapeList : List Char → List Char
  | [] => []
  | c :: cs => escapeChar c ++ escapeList cs

/-- `JSON.stringify` of one string: a quoted, escaped character sequence. -/
def quoteString (s : List Char) : List Char :=
  '"' :: (escapeList s ++ ['"'])

/-- `JSON.stringify` of the elements of a nonempty array, comma separated. -/
def stringifyItems : List (List Char) → List Char
  | [] => []
  | [s] => quoteString s
  | s :: rest => quoteString s ++ ',' :: stringifyItems rest

/-- `JSON.stringify` of an array of strings. -/
def stringifyArray (l : List (List Char)) : List Char :=
  '[' :: (stringifyItems l ++ [']'])

def consFst (c : Char) (o : Option (List Char × List Char)) :
    Option (List Char × List Char) :=
  o.map (fun p => (c :: p.1, p.2))

/-- `JSON.parse` string body: the input starts right after the opening
quote; returns the decoded content and the remainder after the closing
quote.  Handles the escape sequences of the JSON grammar. -/
def parseStringBody : List Char → Option (List Char × List Char)
  | [] => none
  | c :: rest =>
    if c = '"' then some ([], rest)
    else if c = '\\' then
      match rest with
      | [] => none
      | e :: rest2 =>
        if e = '"' then consFst '"' (parseStringBody rest2)
        else if e = '\\' then consFst '\\' (parseStringBody rest2)
        else if e = '/' then consFst '/' (parseStringBody rest2)
        else if e = 'b' then consFst (Char.ofNat 8) (parseStringBody rest2)
        else if e = 'f' then consFst (Char.ofNat 12) (parseStringBody rest2)
        else if e = 'n' then consFst (Char.ofNat 10) (parseStringBody rest2)
        else if e = 'r' then consFst (Char.ofNat 13) (parseStringBody rest2)
        else if e = 't' then consFst (Char.ofNat 9) (parseStringBody rest2)
        else if e = 'u' then
          match rest2 with
          | h1 :: h2 :: h3 :: h4 :: rest3 =>
            match hexVal h1, hexVal h2, hexVal h3, hexVal h4 with
            | some a, some b, some c2, some d =>
              consFst (Char.ofNat (((a * 16 + b) * 16 + c2) * 16 + d))
                (parseStringBody rest3)
            | _, _, _, _ => none
          | _ => none
        else none
    else consFst c (parseStringBody rest)

/-- `JSON.parse` item loop for a nonempty array of strings: expects a
quoted string, then either `,` and more items or the closing `]`.
Fuel-indexed; `parseStringList` passes the input length, which the
round-trip lemma shows is always sufficient on serialized arrays. -/
def parseItems : Nat → List Char → Option (List (List Char) × List Char)
  | 0, _ => none
  | fuel + 1, l =>
    match l with
    | '"' :: rest =>
      match parseStringBody rest with
      | none => none
      | some (s, r) =>
        match r with
        | ',' :: r2 => (parseItems fuel r2).map (fun p => (s :: p.1, p.2))
        | ']' :: r2 => some ([s], r2)
        | _ => none
    | _ => none

/-- `JSON.parse` restricted to the sublanguage of arrays of strings (the
only values the `endpoints` column holds: they are produced by
`JSON.stringify` on an array, or are the literal `'[]'` default). -/
def parseStringList (l : List Char) : Option (List (List Char)) :=
  match l with
  | '[' :: ']' :: r2 => if r2 = [] then some [] else none
  | '[' :: rest =>
    match parseItems rest.length rest with
    | some (items, r) => if r = [] then some items else none
    | none => none
  | _ => none

/-- Endpoint list as stored by `routes.ts`: `JSON.stringify(endpoints || [])`. -/
def stringifyEndpoints (es : List String) : String :=
  String.mk (stringifyArray (es.map String.data))

/-- Endpoint list as read back by `routes.ts`: `JSON.parse` of the column. -/
def parseEndpoints (s : String) : Option (List String) :=
  (parseStringList s.data).map (fun l => l.map String.mk)

theorem hexVal_hexDigitChar_fin : ∀ i : Fin 16,
    hexVal (hexDigitChar i.val) = some i.val := by decide

theorem hexVal_hexDigitChar (n : Nat) (h : n < 16) :
    hexVal (hexDigitChar n) = some n := hexVal_hexDigitChar_fin ⟨n, h⟩

theorem psb_close (rest : List Char) :
    parseStringBody ('"' :: rest) = some ([], rest) := by
  rw [parseStringBody.eq_def]; simp

theorem psb_escQuote (rest : List Char) :
    parseStringBody ('\\' :: '"' :: rest) = consFst '"' (parseStringBody rest) := by
  rw [parseStringBody.eq_def]; simp

theorem psb_escBackslash (rest : List Char) :
    parseStringBody ('\\' :: '\\' :: rest) = consFst '\\' (parseStringBody rest) := by
  rw [parseStringBody.eq_def]; simp

theorem psb_escB (rest : List Char) :
    parseStringBody ('\\' :: 'b' :: rest) =
      consFst (Char.ofNat 8) (parseStringBody rest) := by
  rw [parseStringBody.eq_def]; simp

theorem psb_escT (rest : List Char) :
    parseStringBody ('\\' :: 't' :: rest) =
      consFst (Char.ofNat 9) (parseStringBody rest) := by
  rw [parseStringBody.eq_def]; simp

theorem psb_escN (rest : List Char) :
    parseStringBody ('\\' :: 'n' :: rest) =
      consFst (Char.ofNat 10) (parseStringBody rest) := by
  rw [parseStringBody.eq_def]; simp

theorem psb_escF (rest : List Char) :
    parseStringBody ('\\' :: 'f' :: rest) =
      consFst (Char.ofNat 12) (parseStringBody rest) := by
  rw [parseStringBody.eq_def]; simp

theorem psb_escR (rest : List Char) :
    parseStringBody ('\\' :: 'r' :: rest) =
      consFst (Char.ofNat 13) (parseStringBody rest) := by
  rw [parseStringBody.eq_def]; simp

theorem psb_escU (h1 h2 h3 h4 : Char) (rest : List Char) :
    parseStringBody ('\\' :: 'u' :: h1 :: h2 :: h3 :: h4 :: rest) =
      (match hexVal h1, hexVal h2, hexVal h3, hexVal h4 with
       | some a, some b, some c2, some d =>
         consFst (Char.ofNat (((a * 16 + b) * 16 + c2) * 16 + d))
           (parseStringBody rest)
       | _, _, _, _ => none) := by
  rw [parseStringBody.eq_def]; simp

theorem psb_plain (c : Char) (rest : List Char) (hq : ¬ c = '"')
    (hb : ¬ c = '\\') :
    parseStringBody (c :: rest) = consFst c (parseStringBody rest) := by
  rw [parseStringBody.eq_def]; simp [hq, hb]

theorem hexVal_zero : hexVal '0' = some 0 := by decide

theorem parseStringBody_escapeList (s rest : List Char) :
    parseStringBody (escapeList s ++ '"' :: rest) = some (s, rest) := by
  induction s with
  | nil => simpa [escapeList] using psb_close rest
  | cons c cs ih =>
    rw [escapeList, List.append_assoc]
    by_cases h1 : c = '"'
    · subst h1
      have he : escapeChar '"' = ['\\', '"'] := by rfl
      rw [he]
      simp only [List.cons_append, List.nil_append]
      rw [psb_escQuote, ih]; simp [consFst]
    · by_cases h2 : c = '\\'
      · subst h2
        have he : escapeChar '\\' = ['\\', '\\'] := by rfl
        rw [he]
        simp only [List.cons_append, List.nil_append]
        rw [psb_escBackslash, ih]; simp [consFst]
      · by_cases h3 : c.toNat = 8
        · have he : escapeChar c = ['\\', 'b'] := by
            simp only [escapeChar, if_neg h1, if_neg h2, if_pos h3]
          have hc : Char.ofNat 8 = c := by rw [← h3, Char.ofNat_toNat]
          rw [he]
          simp only [List.cons_append, List.nil_append]
          rw [psb_escB, ih, hc]; simp [consFst]
        · by_cases h4 : c.toNat = 9
          · have he : escapeChar c = ['\\', 't'] := by
              simp only [escapeChar, if_neg h1, if_neg h2, if_neg h3, if_pos h4]
            have hc : Char.ofNat 9 = c := by rw [← h4, Char.ofNat_toNat]
            rw [he]
            simp only [List.cons_append, List.nil_append]
            rw [psb_escT, ih, hc]; simp [consFst]
          · by_cases h5 : c.toNat = 10
            · have he : escapeChar c = ['\\', 'n'] := by
                simp only [escapeChar, if_neg h1, if_neg h2, if_neg h3,
                  if_neg h4, if_pos h5]
              have hc : Char.ofNat 10 = c := by rw [← h5, Char.ofNat_toNat]
              rw [he]
              simp only [List.cons_append, List.nil_append]
              rw [psb_escN, ih, hc]; simp [consFst]
            · by_cases h6 : c.toNat = 12
              · have he : escapeChar c = ['\\', 'f'] := by
                  simp only [escapeChar, if_neg h1, if_neg h2, if_neg h3,
                    if_neg h4, if_neg h5, if_pos h6]
                have hc : Char.ofNat 12 = c := by rw [← h6, Char.ofNat_toNat]
                rw [he]
                simp only [List.cons_append, List.nil_append]
                rw [psb_escF, ih, hc]; simp [consFst]
              · by_cases h7 : c.toNat = 13
                · have he : escapeChar c = ['\\', 'r'] := by
                    simp only [escapeChar, if_neg h1, if_neg h2, if_neg h3,
                      if_neg h4, if_neg h5, if_neg h6, if_pos h7]
                  have hc : Char.ofNat 13 = c := by rw [← h7, Char.ofNat_toNat]
                  rw [he]
                  simp only [List.cons_append, List.nil_append]
                  rw [psb_escR, ih, hc]; simp [consFst]
                · by_cases h8 : c.toNat < 32
                  · have hdiv : c.toNat / 16 < 16 := by omega
                    have hmod : c.toNat % 16 < 16 := by omega
                    have he : escapeChar c = ['\\', 'u', '0', '0',
                        hexDigitChar (c.toNat / 16), hexDigitChar (c.toNat % 16)] := by
                      simp only [escapeChar, if_neg h1, if_neg h2, if_neg h3,
                        if_neg h4, if_neg h5, if_neg h6, if_neg h7, if_pos h8]
                    rw [he]
                    simp only [List.cons_append, List.nil_append]
                    rw [psb_escU, hexVal_zero,
                      hexVal_hexDigitChar _ hdiv, hexVal_hexDigitChar _ hmod]
                    simp [consFst, ih]
                    rw [show c.toNat / 16 * 16 + c.toNat % 16 = c.toNat from by
                      omega, Char.ofNat_toNat]
                  · have he : escapeChar c = [c] := by
                      simp only [escapeChar, if_neg h1, if_neg h2, if_neg h3,
                        if_neg h4, if_neg h5, if_neg h6, if_neg h7, if_neg h8]
                    rw [he]
                    simp only [List.cons_append, List.nil_append]
                    rw [psb_plain c _ h1 h2, ih]; simp [consFst]

theorem stringifyItems_cons (s : List Char) (E : List (List Char)) :
    stringifyItems (s :: E) =
      quoteString s ++ (if E = [] then [] else ',' :: stringifyItems E) := by
  cases E <;> simp [stringifyItems]

theorem length_le_stringifyItems (E : List (List Char)) :
    E.length ≤ (stringifyItems E).length := by
  induction E with
  | nil => simp [stringifyItems]
  | cons s E ih =>
    rw [stringifyItems_cons]
    cases E with
    | nil => simp [quoteString]
    | cons s' E' =>
      simp only [quoteString] at *
      simp only [List.length_append, List.length_cons] at *
      simp at ih ⊢
      omega

theorem parseItems_succ (f : Nat) (body : List Char) :
    parseItems (f + 1) ('"' :: body) =
      (match parseStringBody body with
       | none => none
       | some (s, r) =>
         match r with
         | ',' :: r2 => (parseItems f r2).map (fun p => (s :: p.1, p.2))
         | ']' :: r2 => some ([s], r2)
         | _ => none) := by
  rw [parseItems.eq_def]; simp

theorem parseItems_stringify (E : List (List Char)) (hE : E ≠ [])
    (fuel : Nat) (hf : E.length ≤ fuel) (rest : List Char) :
    parseItems fuel (stringifyItems E ++ ']' :: rest) = some (E, rest) := by
  induction E generalizing fuel rest with
  | nil => exact absurd rfl hE
  | cons s E' ih =>
    cases fuel with
    | zero => simp at hf
    | succ f =>
      cases E' with
      | nil =>
        have h1 : stringifyItems [s] ++ ']' :: rest =
            '"' :: (escapeList s ++ '"' :: (']' :: rest)) := by
          rw [show stringifyItems [s] = quoteString s from rfl, quoteString]
          simp [List.append_assoc]
        rw [h1, parseItems_succ, parseStringBody_escapeList]
        simp
      | cons s' E'' =>
        have hlen : (s' :: E'').length ≤ f := by
          simp only [List.length_cons] at hf ⊢; omega
        have h1 : stringifyItems (s :: s' :: E'') ++ ']' :: rest =
            '"' :: (escapeList s ++ '"' ::
              (',' :: (stringifyItems (s' :: E'') ++ ']' :: rest))) := by
          rw [show stringifyItems (s :: s' :: E'') =
              quoteString s ++ ',' :: stringifyItems (s' :: E'') from rfl,
            quoteString]
          simp [List.append_assoc]
        rw [h1, parseItems_succ, parseStringBody_escapeList]
        simp [ih (by simp) f hlen rest]

theorem parseStringList_quote (m : List Char) :
    parseStringList ('[' :: '"' :: m) =
      (match parseItems ('"' :: m).length ('"' :: m) with
       | some (items, r) => if r = [] then some items else none
       | none => none) := by
  rw [parseStringList.eq_def]; simp

theorem parseStringList_stringify (E : List (List Char)) :
    parseStringList (stringifyArray E) = some E := by
  cases E with
  | nil => rfl
  | cons s E' =>
    have hm : stringifyItems (s :: E') ++ [']'] =
        '"' :: (escapeList s ++ '"' ::
          ((if E' = [] then [] else ',' :: stringifyItems E') ++ [']'])) := by
      rw [stringifyItems_cons, quoteString]
      simp [List.append_assoc]
    have harr : stringifyArray (s :: E') =
        '[' :: (stringifyItems (s :: E') ++ [']']) := rfl
    have hfuel : (s :: E').length ≤ (stringifyItems (s :: E') ++ [']']).length := by
      have := length_le_stringifyItems (s :: E')
      simp only [List.length_append, List.length_cons, List.length_nil] at this ⊢
      omega
    have key : parseItems (stringifyItems (s :: E') ++ [']']).length
        (stringifyItems (s :: E') ++ [']']) = some (s :: E', []) :=
      parseItems_stringify (s :: E') (by simp)
        ((stringifyItems (s :: E') ++ [']']).length) hfuel []
    rw [harr, hm, parseStringList_quote, ← hm, key]
    rfl

theorem parseEndpoints_roundTrip (es : List String) :
    parseEndpoints (stringifyEndpoints es) = some es := by
  unfold parseEndpoints stringifyEndpoints
  have : (String.mk (stringifyArray (es.map String.data))).data =
      stringifyArray (es.map String.data) := rfl
  rw [this, parseStringList_stringify]
  simp only [Option.map_some', Option.some.injEq, List.map_map]
  have : (fun l => String.mk l) ∘ String.data = fun s => s := by
    funext s; rfl
  rw [this, List.map_id']

/-! ## CA fingerprint (`src/ca.ts`)

`getCAFingerprint` reads the root-certificate PEM file and returns
`'SHA256:' + Buffer.from(cert).toString('base64').substring(0, 64)`.
The certificate file is modelled as its list of bytes. -/

def base64Table : List Char :=
  "ABCDEFGHIJKLMNOPQRSTUVWXYZabcdefghijklmnopqrstuvwxyz0123456789+/".data

def b64c (n : Nat) : Char := base64Table.getD n '='

/-- Standard base64 of a byte sequence, as `Buffer.toString('base64')`
produces it. -/
def base64Encode : List Nat → List Char
  | [] => []
  | [a] => [b64c (a / 4), b64c (a % 4 * 16), '=', '=']
  | [a, b] => [b64c (a / 4), b64c (a % 4 * 16 + b / 16), b64c (b % 16 * 4), '=']
  | a :: b :: c :: rest =>
    b64c (a / 4) :: b64c (a % 4 * 16 + b / 16) :: b64c (b % 16 * 4 + c / 64) ::
      b64c (c % 64) :: base64Encode rest

/-- `getCAFingerprint` of `src/ca.ts`: base64 of the certificate bytes,
truncated to 64 characters, behind a literal `"SHA256:"` tag.  No hash
function is applied. -/
def getCAFingerprint (cert : List Nat) : String :=
  "SHA256:" ++ String.mk ((base64Encode cert).take 64)

/-! ## Data model (`src/database.ts` schema) -/

/-- Agent lifecycle states stored in the `status` column. -/
inductive Status
  | PENDING_VALIDATION
  | ACTIVE
deriving DecidableEq

/-- A row of the `agents` table. -/
structure Agent where
  agentId : String
  ansName : String
  agentDisplayName : String
  agentDescription : String
  version : String
  agentHost : String
  endpoints : String
  identityCsrPEM : String
  identityCertPEM : Option String
  status : Status
  createdAt : Nat
  updatedAt : Nat
deriving DecidableEq

/-- A row of the `validation_challenges` table (`id` is the SQLite rowid). -/
structure Challenge where
  id : Nat
  agentId : String
  token : String
  expiresAt : Nat
  used : Bool
deriving DecidableEq

/-- A row of the `transparency_log` table (`id` is the SQLite rowid,
assigned in insertion order). -/
structure LogEntry where
  id : Nat
  eventType : String
  agentId : String
  ansName : String
  data : String
  merkleHash : String
  timestamp : Nat
deriving DecidableEq

/-- The three relations of the SQLite database.  `INSERT` appends;
rows are never deleted by any route. -/
structure Store where
  agents : List Agent
  challenges : List Challenge
  log : List LogEntry
deriving DecidableEq

def emptyStore : Store := { agents := [], challenges := [], log := [] }

/-- JavaScript `x || y` on strings: the empty string is falsy. -/
def jsOr (a b : String) : String := if a = "" then b else a

/-! ## Operations (`src/routes.ts`)

Each route handler becomes a function from its request data, the values
drawn from the environment (generated ids, random tokens, the current
time, the certificate produced by the external `openssl` call), and the
store, to the next store and a response. -/

/-- `SELECT * FROM agents WHERE agentId = ? (LIMIT 1)`. -/
def findAgent (s : Store) (aid : String) : Option Agent :=
  s.agents.find? (fun a => decide (a.agentId = aid))

/-- `SELECT * FROM agents WHERE ansName = ? (LIMIT 1)`. -/
def findAgentByAnsName (s : Store) (name : String) : Option Agent :=
  s.agents.find? (fun a => decide (a.ansName = name))

/-- `SELECT * FROM validation_challenges WHERE agentId = ? AND used = 0 AND
expiresAt > ?` with `?` the current time. -/
def findChallenge (s : Store) (aid : String) (now : Nat) : Option Challenge :=
  s.challenges.find? (fun c =>
    decide (c.agentId = aid ∧ c.used = false ∧ now < c.expiresAt))

/-- `ansName` computed at intake: `ans://v{version}.{agentHost}`. -/
def ansNameOf (version agentHost : String) : String :=
  "ans://v" ++ version ++ "." ++ agentHost

/-- Request body of `POST /v1/agents/register`.  `endpoints` is optional
in the JSON body. -/
structure RegInput where
  agentDisplayName : String
  agentDescription : String
  version : String
  agentHost : String
  endpoints : Option (List String)
  identityCsrPEM : String
deriving DecidableEq

inductive RegError
  | ValidationError
  | ConflictError
  | InternalError
deriving DecidableEq

/-- The 202 body of a successful registration (the parts the claims
are about). -/
structure RegResponse where
  agentId : String
  ansName : String
  status : Status
  dnsRecordName : String
  dnsRecordValue : String
  expiresAt : Nat
deriving DecidableEq

/-- `POST /v1/agents/register`.  `agentId` models `uuidv4()`, `token`
models `randomBytes(16).toString('hex')`, `now` the current time.
The explicit `agentId` duplicate check models the schema's
`agentId TEXT UNIQUE` constraint, whose violation the handler would
surface as a caught exception (HTTP 500). -/
def registerAgent (inp : RegInput) (agentId token : String) (now : Nat)
    (s : Store) : Store × Except RegError RegResponse :=
  if inp.agentDisplayName = "" ∨ inp.version = "" ∨ inp.agentHost = "" ∨
      inp.identityCsrPEM = "" then
    (s, .error .ValidationError)
  else
    let ansName := ansNameOf inp.version inp.agentHost
    match findAgentByAnsName s ansName with
    | some _ => (s, .error .ConflictError)
    | none =>
      if (findAgent s agentId).isSome then
        (s, .error .InternalError)
      else
        let expiresAt := now + 3600000
        let agent : Agent :=
          { agentId, ansName,
            agentDisplayName := inp.agentDisplayName,
            agentDescription := inp.agentDescription,
            version := inp.version,
            agentHost := inp.agentHost,
            endpoints := stringifyEndpoints (inp.endpoints.getD []),
            identityCsrPEM := inp.identityCsrPEM,
            identityCertPEM := none,
            status := .PENDING_VALIDATION,
            createdAt := now, updatedAt := now }
        let ch : Challenge :=
          { id := s.challenges.length + 1, agentId, token, expiresAt,
            used := false }
        ({ s with agents := s.agents ++ [agent],
                  challenges := s.challenges ++ [ch] },
         .ok { agentId, ansName, status := .PENDING_VALIDATION,
               dnsRecordName := "_ans-challenge." ++ inp.agentHost,
               dnsRecordValue := token, expiresAt })

inductive VerifyError
  | NotFoundError
  | StateError
  | ChallengeError
  | DnsValidationError
deriving DecidableEq

/-- The validation phase of `POST /v1/agents/:agentId/verify-dns`
(lines 77-102 of the route module): agent lookup, state check, challenge
query, and the stubbed DNS check (`const dnsValidated = true` under the
comment `For MVP: Skip actual DNS check, auto-validate`).  Note that the
function takes no DNS environment at all: the handler never queries DNS. -/
def verifyLookup (s : Store) (aid : String) (now : Nat) :
    Except VerifyError (Agent × Challenge) :=
  match findAgent s aid with
  | none => .error .NotFoundError
  | some agent =>
    if agent.status ≠ Status.PENDING_VALIDATION then .error .StateError
    else
      match findChallenge s aid now with
      | none => .error .ChallengeError
      | some ch =>
        let dnsValidated := true
        if dnsValidated then .ok (agent, ch)
        else .error .DnsValidationError

/-- `UPDATE agents SET status = 'ACTIVE', identityCertPEM = ?,
updatedAt = ? WHERE agentId = ?`. -/
def setAgentActive (aid cert : String) (now : Nat) (s : Store) : Store :=
  { s with agents := s.agents.map (fun a =>
      if a.agentId = aid then
        { a with status := .ACTIVE, identityCertPEM := some cert,
                 updatedAt := now }
      else a) }

/-- `UPDATE validation_challenges SET used = 1 WHERE id = ?`. -/
def markChallengeUsed (chId : Nat) (s : Store) : Store :=
  { s with challenges := s.challenges.map (fun c =>
      if c.id = chId then { c with used := true } else c) }

/-- `JSON.stringify(\x7b agentDisplayName: agent.agentDisplayName \x7d)`,
the `data` column of the log entry. -/
def dataJsonOf (displayName : String) : String :=
  "\x7b\"agentDisplayName\":" ++ String.mk (quoteString displayName.data) ++
    "\x7d"

/-- `INSERT INTO transparency_log ...`.  `rand` models
`randomBytes(32).toString('hex')`: the stored `merkleHash` is exactly the
fresh random value, independent of the log's previous entries and of the
entry's own content. -/
def appendLogEntry (aid ansName data rand : String) (now : Nat)
    (s : Store) : Store :=
  { s with log := s.log ++
      [{ id := s.log.length + 1, eventType := "AGENT_REGISTERED",
         agentId := aid, ansName, data, merkleHash := rand,
         timestamp := now }] }

/-- The three successive `await run(...)` statements of a successful
verification (lines 112-125).  Each is its own SQLite statement — there
is no surrounding transaction — so an error can interrupt the sequence
after any prefix. -/
def verifyWrites (aid : String) (agent : Agent) (ch : Challenge)
    (cert rand : String) (now : Nat) : List (Store → Store) :=
  [setAgentActive aid cert now,
   markChallengeUsed ch.id,
   appendLogEntry aid agent.ansName (dataJsonOf agent.agentDisplayName) rand now]

/-- Apply the first `k` of a list of state updates: the store observed
when the `(k+1)`-st statement fails (or after all of them, for large `k`). -/
def applyFirstWrites : Nat → List (Store → Store) → Store → Store
  | Nat.succ k, f :: fs, s => applyFirstWrites k fs (f s)
  | _, _, s => s

/-- The store after the validation phase succeeded and the first `k`
write statements committed: every state the database passes through
during `POST /v1/agents/:agentId/verify-dns`. -/
def verifyDnsUpTo (aid : String) (now : Nat) (cert rand : String) (k : Nat)
    (s : Store) : Store :=
  match verifyLookup s aid now with
  | .error _ => s
  | .ok (agent, ch) => applyFirstWrites k (verifyWrites aid agent ch cert rand now) s

/-- The 200 body of a successful verification (the parts the claims are
about). -/
structure VerifyResponse where
  agentId : String
  ansName : String
  status : Status
  identityCert : String
deriving DecidableEq

/-- `POST /v1/agents/:agentId/verify-dns`, complete run: validation phase,
then the three writes.  `cert` models the output of
`issueIdentityCertificate` (the external `openssl` invocation of
`src/ca.ts`), `rand` the `randomBytes(32).toString('hex')` draw. -/
def verifyDns (aid : String) (now : Nat) (cert rand : String) (s : Store) :
    Store × Except VerifyError VerifyResponse :=
  match verifyLookup s aid now with
  | .error e => (s, .error e)
  | .ok (agent, _) =>
    (verifyDnsUpTo aid now cert rand 3 s,
     .ok { agentId := aid, ansName := agent.ansName, status := .ACTIVE,
           identityCert := cert })

inductive GetError
  | NotFoundError
  | InternalError
deriving DecidableEq

/-- The 200 body of `GET /v1/agents/:agentId`. -/
structure AgentResponse where
  agentId : String
  ansName : String
  agentDisplayName : String
  agentDescription : String
  version : String
  agentHost : String
  status : Status
  endpoints : List String
  identityCertPEM : Option String
  createdAt : Nat
  updatedAt : Nat
deriving DecidableEq

/-- `GET /v1/agents/:agentId`: the stored `endpoints` column goes through
`JSON.parse(agent.endpoints || '[]')`; a parse failure would throw and be
returned as HTTP 500. -/
def getAgent (s : Store) (aid : String) : Except GetError AgentResponse :=
  match findAgent s aid with
  | none => .error .NotFoundError
  | some a =>
    match parseEndpoints (jsOr a.endpoints "[]") with
    | none => .error .InternalError
    | some es =>
      .ok { agentId := a.agentId, ansName := a.ansName,
            agentDisplayName := a.agentDisplayName,
            agentDescription := a.agentDescription,
            version := a.version, agentHost := a.agentHost,
            status := a.status, endpoints := es,
            identityCertPEM := a.identityCertPEM,
            createdAt := a.createdAt, updatedAt := a.updatedAt }

/-- The all-zero value `'0'.repeat(64)` used for an empty log. -/
def zeros64 : String := String.mk (List.replicate 64 '0')

structure LogCheckpoint where
  treeSize : Nat
  rootHash : String
  timestamp : Nat
deriving DecidableEq

/-- `GET /v1/log/checkpoint`: `COUNT(*)` over the log, and the
`merkleHash`/`timestamp` of the row with the highest rowid (the most
recently inserted one), with JavaScript `||` defaults. -/
def checkpoint (s : Store) (now : Nat) : LogCheckpoint :=
  match s.log.getLast? with
  | none => { treeSize := s.log.length, rootHash := zeros64, timestamp := now }
  | some e => { treeSize := s.log.length,
                rootHash := jsOr e.merkleHash zeros64,
                timestamp := e.timestamp }

/-! ## Reachable states

The mutating routes are registration and verification; verification is
three independent SQL statements, so every prefix of its write sequence
is a database state the system can be observed in (the handler stops at
the first failing `await`). -/

inductive RegistryOp
  | reg (inp : RegInput) (agentId token : String) (now : Nat)
  | verify (aid : String) (now : Nat) (cert rand : String) (k : Nat)

def applyOp (s : Store) : RegistryOp → Store
  | .reg inp aid tok now => (registerAgent inp aid tok now s).1
  | .verify aid now cert rand k => verifyDnsUpTo aid now cert rand k s

def runOps (s : Store) : List RegistryOp → Store
  | [] => s
  | op :: ops => runOps (applyOp s op) ops

/-- States reachable from the freshly initialized (empty) database. -/
def Reachable (s : Store) : Prop := ∃ ops, s = runOps emptyStore ops

/-- States reachable from a given state by further operations. -/
def ReachableFrom (s t : Store) : Prop := ∃ ops, t = runOps s ops

deriving instance DecidableEq for Except

/-! ## Sample data used by the concrete witnesses -/

/-- The registration body of end-to-end scenario A of the spec. -/
def sampleInput : RegInput :=
  { agentDisplayName := "Bot", agentDescription := "demo", version := "1",
    agentHost := "bot.example.com",
    endpoints := some ["https://bot.example.com/api"],
    identityCsrPEM := "CSR" }

/-- The store after registering `sampleInput` into the empty database. -/
def sampleStore : Store := (registerAgent sampleInput "a1" "tok" 0 emptyStore).1

/-! ## The cert-iff-active invariant (claim C4) -/

/-- Per-agent statement of the §3 invariant: the certificate column is
populated exactly when the status column is `ACTIVE`. -/
def certMatchesStatus (a : Agent) : Bool :=
  a.identityCertPEM.isSome == (a.status == Status.ACTIVE)

def certInv (s : Store) : Bool := s.agents.all certMatchesStatus

theorem applyFirstWrites_zero (l : List (Store → Store)) (s : Store) :
    applyFirstWrites 0 l s = s := rfl

theorem applyFirstWrites_one (w1 w2 w3 : Store → Store) (s : Store) :
    applyFirstWrites 1 [w1, w2, w3] s = w1 s := rfl

theorem applyFirstWrites_two (w1 w2 w3 : Store → Store) (s : Store) :
    applyFirstWrites 2 [w1, w2, w3] s = w2 (w1 s) := rfl

theorem applyFirstWrites_succ (k : Nat) (f : Store → Store)
    (fs : List (Store → Store)) (s : Store) :
    applyFirstWrites (k + 1) (f :: fs) s = applyFirstWrites k fs (f s) := rfl

theorem applyFirstWrites_nil (k : Nat) (s : Store) :
    applyFirstWrites k [] s = s := by cases k <;> rfl

theorem applyFirstWrites_three (k : Nat) (w1 w2 w3 : Store → Store) (s : Store) :
    applyFirstWrites (k + 3) [w1, w2, w3] s = w3 (w2 (w1 s)) := by
  rw [show k + 3 = (k + 2) + 1 from rfl, applyFirstWrites_succ,
    show k + 2 = (k + 1) + 1 from rfl, applyFirstWrites_succ,
    applyFirstWrites_succ, applyFirstWrites_nil]

theorem certInv_registerAgent (s : Store) (h : certInv s = true)
    (inp : RegInput) (aid tok : String) (now : Nat) :
    certInv (registerAgent inp aid tok now s).1 = true := by
  unfold registerAgent
  dsimp only
  repeat' split
  any_goals exact h
  all_goals simp only [certInv, List.all_append] at h ⊢
  all_goals simp [h, certMatchesStatus]

theorem certInv_setAgentActive (aid cert : String) (now : Nat) (s : Store)
    (h : certInv s = true) : certInv (setAgentActive aid cert now s) = true := by
  simp only [certInv, setAgentActive, List.all_map] at h ⊢
  rw [List.all_eq_true] at h ⊢
  intro a ha
  by_cases hid : a.agentId = aid
  · simp [Function.comp, hid, certMatchesStatus]
  · simpa [Function.comp, hid, certMatchesStatus] using h a ha

theorem certInv_markChallengeUsed (chId : Nat) (s : Store)
    (h : certInv s = true) : certInv (markChallengeUsed chId s) = true := h

theorem certInv_appendLogEntry (aid ansName data rand : String) (now : Nat)
    (s : Store) (h : certInv s = true) :
    certInv (appendLogEntry aid ansName data rand now s) = true := h

theorem certInv_verifyDnsUpTo (aid : String) (now : Nat) (cert rand : String)
    (k : Nat) (s : Store) (h : certInv s = true) :
    certInv (verifyDnsUpTo aid now cert rand k s) = true := by
  unfold verifyDnsUpTo
  cases hlk : verifyLookup s aid now with
  | error e => exact h
  | ok p =>
    obtain ⟨agent, ch⟩ := p
    simp only [verifyWrites]
    rcases k with _ | _ | _ | k
    · rw [applyFirstWrites_zero]; exact h
    · rw [applyFirstWrites_one]
      exact certInv_setAgentActive _ _ _ _ h
    · rw [applyFirstWrites_two]
      exact certInv_markChallengeUsed _ _ (certInv_setAgentActive _ _ _ _ h)
    · rw [applyFirstWrites_three]
      exact certInv_appendLogEntry _ _ _ _ _ _
        (certInv_markChallengeUsed _ _ (certInv_setAgentActive _ _ _ _ h))

theorem certInv_applyOp (s : Store) (op : RegistryOp) (h : certInv s = true) :
    certInv (applyOp s op) = true := by
  cases op with
  | reg inp aid tok now => exact certInv_registerAgent s h inp aid tok now
  | verify aid now cert rand k => exact certInv_verifyDnsUpTo aid now cert rand k s h

theorem certInv_runOps (s : Store) (ops : List RegistryOp)
    (h : certInv s = true) : certInv (runOps s ops) = true := by
  induction ops generalizing s with
  | nil => exact h
  | cons op ops ih => exact ih _ (certInv_applyOp s op h)

/-! ## Observations used in the claim statements -/

/-- Status of the agent a `GET`/verification would find, if any. -/
def agentStatus (s : Store) (aid : String) : Option Status :=
  (findAgent s aid).map (fun a => a.status)

/-- The `merkleHash` of the most recently inserted log row, `""` if none. -/
def lastLogHash (s : Store) : String :=
  ((s.log.getLast?).map (fun e => e.merkleHash)).getD ""

def isDnsValidationError {α : Type} : Except VerifyError α → Bool
  | .error .DnsValidationError => true
  | _ => false

/-- `true` when an optional challenge, if present, is unconsumed. -/
def foundUnused : Option Challenge → Bool
  | none => true
  | some c => !c.used

/-! ## Lemmas about verification -/

theorem verifyLookup_ok_inv (s : Store) (aid : String) (now : Nat)
    (agent : Agent) (ch : Challenge)
    (h : verifyLookup s aid now = .ok (agent, ch)) :
    findAgent s aid = some agent ∧
    agent.status = Status.PENDING_VALIDATION ∧
    findChallenge s aid now = some ch := by
  unfold verifyLookup at h
  cases hfd : findAgent s aid with
  | none => rw [hfd] at h; exact absurd h (by simp)
  | some a =>
    rw [hfd] at h
    dsimp only at h
    by_cases hst : a.status ≠ Status.PENDING_VALIDATION
    · rw [if_pos hst] at h; exact absurd h (by simp)
    · rw [if_neg hst] at h
      push_neg at hst
      cases hch : findChallenge s aid now with
      | none => rw [hch] at h; exact absurd h (by simp)
      | some c =>
        rw [hch] at h
        have h' : Except.ok (ε := VerifyError) (a, c) = .ok (agent, ch) := h
        simp only [Except.ok.injEq, Prod.mk.injEq] at h'
        obtain ⟨rfl, rfl⟩ := h'
        exact ⟨rfl, hst, rfl⟩

theorem findChallenge_unused (s : Store) (aid : String) (now : Nat) :
    foundUnused (findChallenge s aid now) = true := by
  cases h : findChallenge s aid now with
  | none => rfl
  | some c =>
    have hp := List.find?_some h
    simp only [decide_eq_true_eq] at hp
    simp [foundUnused, hp.2.1]

theorem find?_map_of_pres {α : Type} (l : List α) (p : α → Bool) (f : α → α)
    (h : ∀ x, p (f x) = p x) :
    (l.map f).find? p = (l.find? p).map f := by
  rw [List.find?_map]
  have hpf : p ∘ f = p := funext h
  rw [hpf]

theorem findAgent_setAgentActive (aid2 cert : String) (now : Nat) (s : Store)
    (aid : String) :
    findAgent (setAgentActive aid2 cert now s) aid =
      (findAgent s aid).map (fun a =>
        if a.agentId = aid2 then
          { a with status := .ACTIVE, identityCertPEM := some cert,
                   updatedAt := now }
        else a) := by
  unfold findAgent setAgentActive
  exact find?_map_of_pres _ _ _ (fun x => by by_cases hx : x.agentId = aid2 <;>
    simp [hx])

theorem agentStatus_markChallengeUsed (i : Nat) (s : Store) (aid : String) :
    agentStatus (markChallengeUsed i s) aid = agentStatus s aid := rfl

theorem agentStatus_appendLogEntry (a n d r : String) (now : Nat) (s : Store)
    (aid : String) :
    agentStatus (appendLogEntry a n d r now s) aid = agentStatus s aid := rfl

theorem agentStatus_setAgentActive_ne (aid aid2 cert : String) (now : Nat)
    (s : Store) (hne : aid ≠ aid2) :
    agentStatus (setAgentActive aid2 cert now s) aid = agentStatus s aid := by
  unfold agentStatus
  rw [findAgent_setAgentActive]
  cases hfd : findAgent s aid with
  | none => rfl
  | some a =>
    have := List.find?_some hfd
    simp only [decide_eq_true_eq] at this
    have : ¬ a.agentId = aid2 := by rw [this]; exact hne
    simp [this]

theorem agentStatus_active_applyOp (s : Store) (aid : String)
    (op : RegistryOp) (h : agentStatus s aid = some Status.ACTIVE) :
    agentStatus (applyOp s op) aid = some Status.ACTIVE := by
  obtain ⟨a, hfd, hst⟩ : ∃ a, findAgent s aid = some a ∧
      a.status = Status.ACTIVE := by
    unfold agentStatus at h
    cases hfd : findAgent s aid with
    | none => rw [hfd] at h; exact absurd h (by simp)
    | some a => rw [hfd] at h; simp only [Option.map_some'] at h
                exact ⟨a, rfl, by injection h⟩
  cases op with
  | reg inp aid2 tok now2 =>
    show agentStatus (registerAgent inp aid2 tok now2 s).1 aid = _
    unfold registerAgent
    dsimp only
    repeat' split
    any_goals exact h
    unfold agentStatus findAgent at h ⊢
    rw [List.find?_append]
    cases hfd2 : List.find? (fun a => decide (a.agentId = aid)) s.agents with
    | none => rw [hfd2] at h; exact absurd h (by simp)
    | some a2 => rw [hfd2] at h; exact h
  | verify aid2 now2 cert rand k =>
    show agentStatus (verifyDnsUpTo aid2 now2 cert rand k s) aid = _
    unfold verifyDnsUpTo
    cases hlk : verifyLookup s aid2 now2 with
    | error e => exact h
    | ok p =>
      obtain ⟨agent, ch⟩ := p
      obtain ⟨hfd2, hpend, _⟩ := verifyLookup_ok_inv s aid2 now2 agent ch hlk
      have hne : aid ≠ aid2 := by
        intro he
        rw [← he, hfd] at hfd2
        injection hfd2 with h2
        rw [← h2] at hpend
        rw [hst] at hpend
        exact absurd hpend (by simp)
      simp only [verifyWrites]
      rcases k with _ | _ | _ | k
      · rw [applyFirstWrites_zero]; exact h
      · rw [applyFirstWrites_one]
        rw [show agentStatus (setAgentActive aid2 cert now2 s) aid =
            agentStatus s aid from agentStatus_setAgentActive_ne _ _ _ _ _ hne]
        exact h
      · rw [applyFirstWrites_two]
        rw [agentStatus_markChallengeUsed,
          show agentStatus (setAgentActive aid2 cert now2 s) aid =
            agentStatus s aid from agentStatus_setAgentActive_ne _ _ _ _ _ hne]
        exact h
      · rw [applyFirstWrites_three]
        rw [agentStatus_appendLogEntry, agentStatus_markChallengeUsed,
          show agentStatus (setAgentActive aid2 cert now2 s) aid =
            agentStatus s aid from agentStatus_setAgentActive_ne _ _ _ _ _ hne]
        exact h

theorem agentStatus_active_runOps (s : Store) (aid : String)
    (ops : List RegistryOp) (h : agentStatus s aid = some Status.ACTIVE) :
    agentStatus (runOps s ops) aid = some Status.ACTIVE := by
  induction ops generalizing s with
  | nil => exact h
  | cons op ops ih => exact ih _ (agentStatus_active_applyOp s aid op h)

theorem verifyDns_active_state_error (t : Store) (aid : String) (now : Nat)
    (cert rand : String) (h : agentStatus t aid = some Status.ACTIVE) :
    verifyDns aid now cert rand t = (t, .error .StateError) := by
  obtain ⟨a, hfd, hst⟩ : ∃ a, findAgent t aid = some a ∧
      a.status = Status.ACTIVE := by
    unfold agentStatus at h
    cases hfd : findAgent t aid with
    | none => rw [hfd] at h; exact absurd h (by simp)
    | some a => rw [hfd] at h; simp only [Option.map_some'] at h
                exact ⟨a, rfl, by injection h⟩
  have hlk : verifyLookup t aid now = .error .StateError := by
    unfold verifyLookup
    rw [hfd]
    dsimp only
    rw [if_pos (by rw [hst]; simp)]
  unfold verifyDns
  rw [hlk]

theorem applyFirstWrites_all3 (w1 w2 w3 : Store → Store) (s : Store) :
    applyFirstWrites 3 [w1, w2, w3] s = w3 (w2 (w1 s)) := rfl

theorem verifyDns_fst (aid : String) (now : Nat) (cert rand : String)
    (s : Store) :
    (verifyDns aid now cert rand s).1 = verifyDnsUpTo aid now cert rand 3 s := by
  unfold verifyDns verifyDnsUpTo
  cases verifyLookup s aid now with
  | error e => rfl
  | ok p => obtain ⟨a, c⟩ := p; rfl

theorem verifyDns_ok_active (s : Store) (aid : String) (now : Nat)
    (cert rand : String)
    (hok : (verifyDns aid now cert rand s).2.isOk = true) :
    agentStatus (verifyDns aid now cert rand s).1 aid =
      some Status.ACTIVE := by
  rw [verifyDns_fst]
  cases hlk : verifyLookup s aid now with
  | error e =>
    unfold verifyDns at hok
    rw [hlk] at hok
    simp [Except.isOk, Except.toBool] at hok
  | ok p =>
    obtain ⟨agent, ch⟩ := p
    obtain ⟨hfd, _, _⟩ := verifyLookup_ok_inv s aid now agent ch hlk
    unfold verifyDnsUpTo
    rw [hlk]
    simp only [verifyWrites]
    rw [applyFirstWrites_all3]
    rw [agentStatus_appendLogEntry, agentStatus_markChallengeUsed]
    unfold agentStatus
    rw [findAgent_setAgentActive, hfd]
    have hid : agent.agentId = aid := by
      have := List.find?_some hfd
      simpa using this
    simp [hid]

theorem registerAgent_log (inp : RegInput) (aid tok : String) (now : Nat)
    (s : Store) : (registerAgent inp aid tok now s).1.log = s.log := by
  unfold registerAgent
  dsimp only
  repeat' split
  all_goals rfl

theorem verifyDnsUpTo_log (aid : String) (now : Nat) (cert rand : String)
    (k : Nat) (s : Store) :
    ∃ t, (verifyDnsUpTo aid now cert rand k s).log = s.log ++ t := by
  unfold verifyDnsUpTo
  cases verifyLookup s aid now with
  | error e => exact ⟨[], by simp⟩
  | ok p =>
    obtain ⟨agent, ch⟩ := p
    simp only [verifyWrites]
    rcases k with _ | _ | _ | k
    · exact ⟨[], by simp [applyFirstWrites_zero]⟩
    · exact ⟨[], by simp [applyFirstWrites_one, setAgentActive]⟩
    · exact ⟨[], by simp [applyFirstWrites_two, setAgentActive, markChallengeUsed]⟩
    · refine ⟨[({ id := s.log.length + 1,
                  eventType := "AGENT_REGISTERED",
                  agentId := aid, ansName := agent.ansName,
                  data := dataJsonOf agent.agentDisplayName,
                  merkleHash := rand,
                  timestamp := now } : LogEntry)], ?_⟩
      rw [applyFirstWrites_three]
      simp [appendLogEntry, markChallengeUsed, setAgentActive]

theorem verifyLookup_never_dns (s : Store) (aid : String) (now : Nat) :
    verifyLookup s aid now ≠ .error .DnsValidationError := by
  unfold verifyLookup
  repeat' split
  all_goals simp

theorem stringifyEndpoints_ne_empty (es : List String) :
    stringifyEndpoints es ≠ "" := by
  intro h
  have := congrArg String.data h
  rw [show (stringifyEndpoints es).data = stringifyArray (es.map String.data)
    from rfl] at this
  rw [stringifyArray] at this
  exact absurd this (by simp)

theorem find?_append_right_single {α : Type} (l : List α) (p : α → Bool)
    (x : α) (hl : l.find? p = none) (hx : p x = true) :
    (l ++ [x]).find? p = some x := by
  rw [List.find?_append, hl]
  simp [List.find?_cons, hx]

/-- A second sample registration with different content, used to show the
log hash ignores the entry's content and the chain. -/
def sampleInputB : RegInput :=
  { agentDisplayName := "Other", agentDescription := "", version := "2",
    agentHost := "other.example.org", endpoints := none,
    identityCsrPEM := "CSR2" }

def sampleStoreB : Store := (registerAgent sampleInputB "b1" "tokB" 0 emptyStore).1

/-- A concrete reachable run: one registration, one full verification. -/
def sampleOps : List RegistryOp :=
  [.reg sampleInput "a1" "tok" 0, .verify "a1" 5 "CERT" "r1" 3]

/-! ## The claims -/

/-- C1: the claim says each stored `entryHash` is a pure function of the
previous entry's hash and the entry's own canonical content.  The code
stores `merkleHash = randomBytes(32).toString('hex')` instead: two runs
that append an entry with identical content to identical logs but
different random draws store different hashes (first conjunct), two runs
with entirely different content and different registered agents but the
same random draw store the same hash (second conjunct), and the stored
hash is exactly the random draw (third conjunct).  So no recomputation
from genesis and recorded content can reproduce the stored hashes. -/
theorem C1_log_hash_not_chained :
    ((verifyDns "a1" 5 "CERT" "r1" sampleStore).1.log.map
        (fun e => e.merkleHash) ==
      (verifyDns "a1" 5 "CERT" "r2" sampleStore).1.log.map
        (fun e => e.merkleHash)) = false
    ∧ (verifyDns "a1" 5 "CERT" "r1" sampleStore).1.log.map
        (fun e => e.merkleHash) =
      (verifyDns "b1" 5 "CERTB" "r1" sampleStoreB).1.log.map
        (fun e => e.merkleHash)
    ∧ lastLogHash (verifyDns "a1" 5 "CERT" "r1" sampleStore).1 = "r1" := by
  decide

/-- C2: the claim says verification queries the DNS TXT record at
`_ans-challenge.{agentHost}` and fails with `DnsValidationError` when the
token is not published.  The handler never queries DNS
(`const dnsValidated = true` under a `TODO`): on a store where the token
was never published anywhere, verification succeeds, activates the agent
and appends a log entry (first three conjuncts), and no run of
`verifyDns` on any input can ever return `DnsValidationError` (last
conjunct). -/
theorem C2_dns_validation_skipped :
    (verifyDns "a1" 5 "CERT" "r1" sampleStore).2.isOk = true
    ∧ agentStatus (verifyDns "a1" 5 "CERT" "r1" sampleStore).1 "a1" =
        some Status.ACTIVE
    ∧ (verifyDns "a1" 5 "CERT" "r1" sampleStore).1.log.length =
        sampleStore.log.length + 1
    ∧ ∀ (aid : String) (now : Nat) (cert rand : String) (s : Store),
        isDnsValidationError (verifyDns aid now cert rand s).2 = false := by
  refine ⟨by decide, by decide, by decide, ?_⟩
  intro aid now cert rand s
  unfold verifyDns
  cases hlk : verifyLookup s aid now with
  | ok p => obtain ⟨a, c⟩ := p; rfl
  | error e =>
    have hne := verifyLookup_never_dns s aid now
    rw [hlk] at hne
    cases e
    · rfl
    · rfl
    · rfl
    · exact absurd rfl hne

/-- C3: the claim says the four effects of a successful verification are
atomic, so an error before commit leaves the agent `PENDING_VALIDATION`
with its challenge unconsumed.  The handler issues three separate
`await run(...)` statements with no transaction; if the second statement
fails after the first committed, the observed store (`verifyDnsUpTo`
with one write applied) has the agent already `ACTIVE` while its
challenge is still unconsumed and no log entry exists — contradicting
the required all-or-nothing behaviour. -/
theorem C3_no_transactional_atomicity :
    agentStatus (verifyDnsUpTo "a1" 5 "CERT" "r1" 1 sampleStore) "a1" =
      some Status.ACTIVE
    ∧ (verifyDnsUpTo "a1" 5 "CERT" "r1" 1 sampleStore).challenges.all
        (fun c => !c.used) = true
    ∧ (verifyDnsUpTo "a1" 5 "CERT" "r1" 1 sampleStore).log.length = 0 := by
  decide

/-- C4: in every state reachable from the empty database by any sequence
of registrations and (possibly partially committed) verifications, every
agent's `identityCertPEM` is populated exactly when its `status` is
`ACTIVE`: registration inserts `PENDING_VALIDATION` with no certificate,
and the single `UPDATE` statement of verification sets both the
certificate and `ACTIVE` together. -/
theorem C4_cert_iff_active (s : Store) (h : Reachable s) :
    s.agents.all certMatchesStatus = true := by
  obtain ⟨ops, rfl⟩ := h
  exact certInv_runOps emptyStore ops rfl

/-- Witness for C4 at a concrete reachable state (a registration followed
by a complete successful verification). -/
theorem C4_cert_iff_active_witness :
    (runOps emptyStore sampleOps).agents.all certMatchesStatus = true :=
  C4_cert_iff_active (runOps emptyStore sampleOps) ⟨sampleOps, rfl⟩

/-- C5: a registration whose required fields are present and whose
version and host compute an `ansName` some stored agent already holds
fails with `ConflictError` (HTTP 409) and returns the store unchanged —
no agent row and no challenge row is inserted. -/
theorem C5_duplicate_register_conflict (inp : RegInput) (aid tok : String)
    (now : Nat) (s : Store)
    (hdn : inp.agentDisplayName ≠ "") (hv : inp.version ≠ "")
    (hh : inp.agentHost ≠ "") (hcsr : inp.identityCsrPEM ≠ "")
    (hex : ∃ a ∈ s.agents, a.ansName = ansNameOf inp.version inp.agentHost) :
    registerAgent inp aid tok now s = (s, .error .ConflictError) := by
  unfold registerAgent
  rw [if_neg (by tauto)]
  dsimp only
  obtain ⟨a, ha, hn⟩ := hex
  cases hfd : findAgentByAnsName s (ansNameOf inp.version inp.agentHost) with
  | some a2 => rfl
  | none =>
    exfalso
    rw [findAgentByAnsName, List.find?_eq_none] at hfd
    exact hfd a ha (by simp [hn])

/-- Witness for C5: re-registering the sample input against the store
that already holds it (end-to-end scenario B). -/
theorem C5_duplicate_register_conflict_witness :
    registerAgent sampleInput "a2" "tok2" 7 sampleStore =
      (sampleStore, .error .ConflictError) :=
  C5_duplicate_register_conflict sampleInput "a2" "tok2" 7 sampleStore
    (by decide) (by decide) (by decide) (by decide) (by decide)

/-- C6: the claim says the fingerprint is a proper cryptographic digest of
the root certificate, not a truncation of an encoding, so distinct roots
never collide.  `getCAFingerprint` is
`'SHA256:' + base64(certBytes).substring(0, 64)`: any two certificates
agreeing on their first 48 bytes collide, as these two distinct
certificate byte strings do. -/
theorem C6_fingerprint_truncated_collision :
    (List.replicate 49 65 == List.replicate 48 65 ++ [66]) = false
    ∧ getCAFingerprint (List.replicate 49 65) =
        getCAFingerprint (List.replicate 48 65 ++ [66]) := by
  decide

/-- C7: the checkpoint's `treeSize` equals the number of log rows; no
operation ever removes log rows (registration leaves the log unchanged
and every — possibly partial — verification only appends), so the count
equals the total ever appended and never decreases; `rootHash` is the
all-zero string on an empty log and the most recent entry's `merkleHash`
otherwise (for the well-formed, nonempty hashes the code stores). -/
theorem C7_checkpoint_correct (s : Store) (now : Nat) :
    (checkpoint s now).treeSize = s.log.length
    ∧ (∀ (inp : RegInput) (aid tok : String) (now2 : Nat),
        (registerAgent inp aid tok now2 s).1.log = s.log)
    ∧ (∀ (aid : String) (now2 : Nat) (cert rand : String) (k : Nat),
        ∃ t, (verifyDnsUpTo aid now2 cert rand k s).log = s.log ++ t)
    ∧ (s.log = [] → (checkpoint s now).rootHash = zeros64)
    ∧ (∀ e, s.log.getLast? = some e → e.merkleHash ≠ "" →
        (checkpoint s now).rootHash = e.merkleHash) := by
  refine ⟨?_, ?_, ?_, ?_, ?_⟩
  · unfold checkpoint; cases s.log.getLast? <;> rfl
  · intro inp aid tok now2; exact registerAgent_log inp aid tok now2 s
  · intro aid now2 cert rand k; exact verifyDnsUpTo_log aid now2 cert rand k s
  · intro hnil; unfold checkpoint; rw [hnil]; rfl
  · intro e he hne
    unfold checkpoint
    rw [he]
    dsimp only
    rw [jsOr, if_neg hne]

/-- Witness for C7 at the concrete store with one appended entry. -/
theorem C7_checkpoint_correct_witness :
    (checkpoint (verifyDns "a1" 5 "CERT" "r1" sampleStore).1 9).treeSize =
      (verifyDns "a1" 5 "CERT" "r1" sampleStore).1.log.length
    ∧ (checkpoint (verifyDns "a1" 5 "CERT" "r1" sampleStore).1 9).rootHash =
        "r1" := by
  constructor
  · exact (C7_checkpoint_correct (verifyDns "a1" 5 "CERT" "r1" sampleStore).1 9).1
  · have h := (C7_checkpoint_correct
        (verifyDns "a1" 5 "CERT" "r1" sampleStore).1 9).2.2.2.2
      ({ id := 1, eventType := "AGENT_REGISTERED", agentId := "a1",
         ansName := "ans://v1.bot.example.com",
         data := dataJsonOf "Bot", merkleHash := "r1",
         timestamp := 5 } : LogEntry)
      (by decide) (by decide)
    rw [h]

/-- C8: once a verification has succeeded for an agent, after any further
sequence of operations every later verification of that agent fails with
`StateError` (the agent is no longer `PENDING_VALIDATION`, and the status
never reverts) and returns the store unchanged; moreover the challenge
query can never return a consumed challenge, so a used challenge never
satisfies a verification. -/
theorem C8_challenge_single_use (s : Store) (aid : String) (now : Nat)
    (cert rand : String)
    (hok : (verifyDns aid now cert rand s).2.isOk = true)
    (t : Store)
    (hreach : ReachableFrom (verifyDns aid now cert rand s).1 t)
    (now2 : Nat) (cert2 rand2 : String) :
    verifyDns aid now2 cert2 rand2 t = (t, .error .StateError)
    ∧ foundUnused (findChallenge t aid now2) = true := by
  obtain ⟨ops, rfl⟩ := hreach
  have h1 := verifyDns_ok_active s aid now cert rand hok
  have h2 := agentStatus_active_runOps _ aid ops h1
  exact ⟨verifyDns_active_state_error _ aid now2 cert2 rand2 h2,
    findChallenge_unused _ aid now2⟩

/-- Witness for C8: a second verification right after the first
successful one fails with `StateError` and consumes nothing. -/
theorem C8_challenge_single_use_witness :
    verifyDns "a1" 9 "C2" "R2" (verifyDns "a1" 5 "CERT" "r1" sampleStore).1 =
      ((verifyDns "a1" 5 "CERT" "r1" sampleStore).1, .error .StateError)
    ∧ foundUnused (findChallenge (verifyDns "a1" 5 "CERT" "r1" sampleStore).1
        "a1" 9) = true :=
  C8_challenge_single_use sampleStore "a1" 5 "CERT" "r1" (by decide)
    (verifyDns "a1" 5 "CERT" "r1" sampleStore).1 ⟨[], rfl⟩ 9 "C2" "R2"

/-- C9: when the agent exists and is `PENDING_VALIDATION` but every one of
its challenges is already used or expired, verification fails with
`ChallengeError` (HTTP 400, no valid challenge) and the store is returned
unchanged, so the agent is not activated — an expired challenge can never
validate an agent. -/
theorem C9_expired_challenge_rejected (s : Store) (aid : String) (now : Nat)
    (cert rand : String)
    (hst : agentStatus s aid = some Status.PENDING_VALIDATION)
    (hch : ∀ c ∈ s.challenges, c.agentId = aid →
      c.used = true ∨ c.expiresAt < now) :
    verifyDns aid now cert rand s = (s, .error .ChallengeError) := by
  obtain ⟨a, hfd, hpend⟩ : ∃ a, findAgent s aid = some a ∧
      a.status = Status.PENDING_VALIDATION := by
    unfold agentStatus at hst
    cases hfd : findAgent s aid with
    | none => rw [hfd] at hst; exact absurd hst (by simp)
    | some a => rw [hfd] at hst; simp only [Option.map_some'] at hst
                exact ⟨a, rfl, by injection hst⟩
  have hnone : findChallenge s aid now = none := by
    rw [findChallenge, List.find?_eq_none]
    intro c hc
    simp only [decide_eq_true_eq, not_and]
    intro h1 h2
    rcases hch c hc h1 with h | h
    · exact absurd (h.symm.trans h2) (by decide)
    · omega
  have hlk : verifyLookup s aid now = .error .ChallengeError := by
    unfold verifyLookup
    rw [hfd]
    dsimp only
    rw [if_neg (by rw [hpend]; simp), hnone]
  unfold verifyDns
  rw [hlk]

/-- Witness for C9: verifying the sample agent an hour and a bit after
registration, when its only challenge has expired. -/
theorem C9_expired_challenge_rejected_witness :
    verifyDns "a1" 4000000 "CERT" "r1" sampleStore =
      (sampleStore, .error .ChallengeError) :=
  C9_expired_challenge_rejected sampleStore "a1" 4000000 "CERT" "r1"
    (by decide) (by decide)

/-- C10: reading a freshly registered agent returns exactly the endpoint
list supplied at registration — `JSON.parse` inverts the
`JSON.stringify` applied at intake — and the empty list when `endpoints`
was omitted (`endpoints || []`). -/
theorem C10_endpoints_roundtrip (s : Store) (inp : RegInput)
    (aid tok : String) (now : Nat)
    (hdn : inp.agentDisplayName ≠ "") (hv : inp.version ≠ "")
    (hh : inp.agentHost ≠ "") (hcsr : inp.identityCsrPEM ≠ "")
    (hnoname : findAgentByAnsName s (ansNameOf inp.version inp.agentHost) = none)
    (hnoid : findAgent s aid = none) :
    (getAgent (registerAgent inp aid tok now s).1 aid).map
      (fun r => r.endpoints) = .ok (inp.endpoints.getD []) := by
  unfold registerAgent
  rw [if_neg (by tauto)]
  dsimp only
  rw [hnoname]
  dsimp only
  rw [hnoid]
  simp only [Option.isSome_none]
  rw [if_neg (by simp)]
  unfold getAgent
  have hfd : findAgent
      { agents := s.agents ++
          [{ agentId := aid, ansName := ansNameOf inp.version inp.agentHost,
             agentDisplayName := inp.agentDisplayName,
             agentDescription := inp.agentDescription,
             version := inp.version, agentHost := inp.agentHost,
             endpoints := stringifyEndpoints (inp.endpoints.getD []),
             identityCsrPEM := inp.identityCsrPEM,
             identityCertPEM := none, status := Status.PENDING_VALIDATION,
             createdAt := now, updatedAt := now }],
        challenges := s.challenges ++
          [{ id := s.challenges.length + 1, agentId := aid, token := tok,
             expiresAt := now + 3600000, used := false }],
        log := s.log } aid = some
      { agentId := aid, ansName := ansNameOf inp.version inp.agentHost,
        agentDisplayName := inp.agentDisplayName,
        agentDescription := inp.agentDescription,
        version := inp.version, agentHost := inp.agentHost,
        endpoints := stringifyEndpoints (inp.endpoints.getD []),
        identityCsrPEM := inp.identityCsrPEM,
        identityCertPEM := none, status := Status.PENDING_VALIDATION,
        createdAt := now, updatedAt := now } := by
    unfold findAgent
    exact find?_append_right_single _ _ _ hnoid (by simp)
  rw [hfd]
  dsimp only
  rw [jsOr, if_neg (stringifyEndpoints_ne_empty _), parseEndpoints_roundTrip]
  rfl

/-- Witness for C10: registering the sample input into the empty store and
reading it back returns the supplied endpoint list. -/
theorem C10_endpoints_roundtrip_witness :
    (getAgent sampleStore "a1").map (fun r => r.endpoints) =
      .ok ["https://bot.example.com/api"] :=
  C10_endpoints_roundtrip emptyStore sampleInput "a1" "tok" 0
    (by decide) (by decide) (by decide) (by decide) rfl rfl

end ANS
